import Mathlib

/-!
Shallow embedding of the Medzo_shop proximity-aware fulfillment and
transaction engine.

The backend core lives in a SQL migration (tables `pharmacies`, `medicines`,
`bookings`, `reviews`, `sales`, `sale_items`, sequence `invoice_seq`, and the
RPCs `process_sale`, `submit_review`, `get_nearby_pharmacies`,
`get_medicine_availability`), plus client-side logic in `Home.tsx`
(catalog deduplication), `MedicineDetail.tsx` (availability fetch) and
`PrescriptionUpload.tsx` (prescription matching).

Tables are lists of rows; SQL `float` columns are modelled as `ℚ` (the query
logic is independent of the numeric representation), nullable columns as
`Option`, `uuid` keys as `Nat`.  The haversine expression inside the two geo
RPCs is modelled separately over `ℝ` (trigonometry is not computable); the
query bodies take the distance function as a parameter, so their properties
hold for the actual haversine instance as well.
-/

namespace Medzo

/-- A row of `public.pharmacies` (columns used by the engine).
`latitude`/`longitude` are nullable with DEFAULT 0, `verified` DEFAULT false,
`verification_status` DEFAULT 'unverified', `rating` DEFAULT 0,
`review_count` DEFAULT 0. -/
structure Pharmacy where
  pid : Nat
  pname : String
  paddress : String
  latitude : Option ℚ
  longitude : Option ℚ
  prating : Option ℚ
  review_count : Option Int
  verified : Option Bool
  verification_status : Option String
  deriving Repr, DecidableEq

/-- A row of `public.medicines` (columns used by the engine):
`name`, `pharmacy_id`, `selling_price`, `stock`.  `stock` is an SQL `int`,
so it is modelled as `Int` (nothing in the schema prevents negatives). -/
structure MedicineRow where
  mid : Nat
  mname : String
  pharmacy_id : Nat
  selling_price : ℚ
  stock : Int
  deriving Repr, DecidableEq

/-- A row of `public.bookings` (columns used by the engine). -/
structure BookingRow where
  bid : String
  is_rated : Bool
  deriving Repr, DecidableEq

/-- A row of `public.reviews`.  The table has no uniqueness constraint on
`booking_id`; `rating` carries a CHECK (1 ≤ rating ≤ 5) not enforced here
because `submit_review` is what we study and it forwards its argument. -/
structure ReviewRow where
  booking_id : String
  review_pharmacy : Nat
  user_id : Nat
  rrating : Int
  comment : String
  deriving Repr, DecidableEq

/-- A row of `public.sales`. -/
structure SaleRow where
  sale_id : Nat
  sale_pharmacy : Nat
  invoice_number : String
  customer_name : String
  customer_phone : String
  doctor_name : String
  payment_method : String
  subtotal : ℚ
  discount : ℚ
  taxable_amount : ℚ
  tax_amount : ℚ
  total : ℚ
  sale_status : String
  deriving Repr, DecidableEq

/-- A row of `public.sale_items`. -/
structure SaleItemRow where
  parent_sale : Nat
  medicine_id : Nat
  item_name : String
  batch_number : String
  expiry_date : Option String
  quantity : Int
  price : ℚ
  line_total : ℚ
  gst_percentage : ℚ
  deriving Repr, DecidableEq

/-- One element of the `p_items` jsonb array passed to `process_sale`
(fields read by the RPC: id, name, batchNumber, expiryDate, quantity,
sellingPrice, total, gstPercentage). -/
structure SaleItemInput where
  input_id : Nat
  input_name : String
  input_batch : String
  input_expiry : Option String
  input_quantity : Int
  input_selling_price : ℚ
  input_total : ℚ
  input_gst : ℚ
  deriving Repr, DecidableEq

/-- The persistent store.  `invoice_seq` is the value the next
`nextval('invoice_seq')` returns (the sequence is created with START 1001). -/
structure DB where
  pharmacies : List Pharmacy
  medicines : List MedicineRow
  bookings : List BookingRow
  reviews : List ReviewRow
  sales : List SaleRow
  sale_items : List SaleItemRow
  invoice_seq : Nat
  deriving Repr, DecidableEq

/-- Body of the `process_sale` item loop: insert the `sale_items` row and run
`UPDATE medicines SET stock = stock - quantity WHERE id = item.id`.
The update is unconditional: there is no guard against the stock going
negative. -/
def applyItem (sid : Nat) (d : DB) (item : SaleItemInput) : DB :=
  { d with
    sale_items := d.sale_items ++
      [{ parent_sale := sid, medicine_id := item.input_id,
         item_name := item.input_name, batch_number := item.input_batch,
         expiry_date := item.input_expiry, quantity := item.input_quantity,
         price := item.input_selling_price, line_total := item.input_total,
         gst_percentage := item.input_gst }],
    medicines := d.medicines.map (fun m =>
      if m.mid == item.input_id then
        { m with stock := m.stock - item.input_quantity }
      else m) }

/-- RPC `process_sale` (part_006, lines 82-143): allocates the invoice number
`INV-<today>-<seq>` from the global sequence, inserts the `sales` header,
then for each item inserts a `sale_items` row and decrements the medicine's
stock.  `today` stands for `to_char(now(), 'YYMMDD')`; the fresh `uuid` of
the sale is modelled as the current number of sale rows.  Returns the new
store, the sale id and the invoice number. -/
def process_sale (db : DB) (today : String) (p_pharmacy_id : Nat)
    (p_customer_name p_customer_phone p_doctor_name p_payment_method : String)
    (p_subtotal p_discount p_taxable_amount p_tax_amount p_total : ℚ)
    (p_items : List SaleItemInput) : DB × Nat × String :=
  let v_invoice_number := "INV-" ++ today ++ "-" ++ toString db.invoice_seq
  let v_sale_id := db.sales.length
  let db1 := { db with
    sales := db.sales ++
      [{ sale_id := v_sale_id, sale_pharmacy := p_pharmacy_id,
         invoice_number := v_invoice_number,
         customer_name := p_customer_name, customer_phone := p_customer_phone,
         doctor_name := p_doctor_name, payment_method := p_payment_method,
         subtotal := p_subtotal, discount := p_discount,
         taxable_amount := p_taxable_amount, tax_amount := p_tax_amount,
         total := p_total, sale_status := "Completed" }],
    invoice_seq := db.invoice_seq + 1 }
  let db2 := p_items.foldl (applyItem v_sale_id) db1
  (db2, v_sale_id, v_invoice_number)

/-- RPC `submit_review` (part_006, lines 146-184): unconditionally inserts
the review row, marks the booking rated, reads the pharmacy's current
aggregate (COALESCEd to 0) and writes the weighted average and incremented
count back.  There is no check that the booking was already rated and no
uniqueness constraint on `reviews.booking_id`, hence no failure path. -/
def submit_review (db : DB) (p_booking_id : String) (p_pharmacy_id : Nat)
    (p_user_id : Nat) (p_rating : Int) (p_comment : String) : DB :=
  let db1 : DB := { db with
    reviews := db.reviews ++
      [{ booking_id := p_booking_id, review_pharmacy := p_pharmacy_id,
         user_id := p_user_id, rrating := p_rating, comment := p_comment }],
    bookings := db.bookings.map (fun b : BookingRow =>
      if b.bid == p_booking_id then { b with is_rated := true } else b) }
  match db1.pharmacies.find? (fun p : Pharmacy => p.pid == p_pharmacy_id) with
  | none => db1
  | some ph =>
    let v_old_rating : ℚ := ph.prating.getD 0
    let v_old_count : Int := ph.review_count.getD 0
    let v_new_rating : ℚ :=
      if v_old_count = 0 then (p_rating : ℚ)
      else (v_old_rating * (v_old_count : ℚ) + (p_rating : ℚ)) / ((v_old_count : ℚ) + 1)
    { db1 with pharmacies := db1.pharmacies.map (fun p : Pharmacy =>
        if p.pid == p_pharmacy_id then
          { p with prating := some v_new_rating,
                   review_count := some (v_old_count + 1) }
        else p) }

/-! Stable insertion sort, standing in for SQL `ORDER BY` and the client
`Array.prototype.sort`.  Only membership matters to the claims below. -/

/-- Insert `x` after the elements `y` with `le y x`. -/
def insertLe {α : Type} (le : α → α → Bool) (x : α) : List α → List α
  | [] => [x]
  | y :: ys => if le y x then y :: insertLe le x ys else x :: y :: ys

/-- Insertion sort by the boolean relation `le`. -/
def sortLe {α : Type} (le : α → α → Bool) : List α → List α
  | [] => []
  | x :: xs => insertLe le x (sortLe le xs)

/-- Ascending comparison on nullable distances, SQL `ORDER BY ... ASC`
semantics (NULLs sort last). -/
def leDistOpt : Option ℚ → Option ℚ → Bool
  | some a, some b => decide (a ≤ b)
  | some _, none => true
  | none, some _ => false
  | none, none => true

/-- The `WHERE` conjuncts shared by both geo RPCs:
`latitude IS NOT NULL AND latitude <> 0 AND verified = true`. -/
def pharmacyGeoOk (p : Pharmacy) : Bool :=
  (match p.latitude with
   | some l => decide (l ≠ 0)
   | none => false) && p.verified == some true

/-- The haversine select expression applied to a pharmacy row: SQL arithmetic
on a NULL coordinate yields NULL.  `dist` abstracts the numeric haversine
formula (see `haversine_km` below for the real-valued formula itself). -/
def distOf (dist : ℚ → ℚ → ℚ → ℚ → ℚ) (user_lat user_lng : ℚ)
    (p : Pharmacy) : Option ℚ :=
  match p.latitude, p.longitude with
  | some la, some ln => some (dist user_lat user_lng la ln)
  | _, _ => none

/-- Row type returned by `get_nearby_pharmacies`. -/
structure NearbyRecord where
  nid : Nat
  nname : String
  naddress : String
  nlatitude : Option ℚ
  nlongitude : Option ℚ
  ndistance_km : Option ℚ
  nrating : ℚ
  nreview_count : Int
  nverified : Bool
  nverification_status : String
  deriving Repr, DecidableEq

/-- RPC `get_nearby_pharmacies` (part_006, lines 187-249): inner select over
`pharmacies` filtered by `latitude IS NOT NULL AND latitude <> 0 AND
verified = true`, computing the haversine distance and COALESCEd display
columns; outer select keeps rows with `distance_km <= radius_km` and orders
by distance ascending. -/
def get_nearby_pharmacies (dist : ℚ → ℚ → ℚ → ℚ → ℚ) (db : DB)
    (user_lat user_lng radius_km : ℚ) : List NearbyRecord :=
  let sub : List NearbyRecord :=
    (db.pharmacies.filter pharmacyGeoOk).map (fun p : Pharmacy =>
      { nid := p.pid, nname := p.pname, naddress := p.paddress,
        nlatitude := p.latitude, nlongitude := p.longitude,
        ndistance_km := distOf dist user_lat user_lng p,
        nrating := p.prating.getD 0,
        nreview_count := p.review_count.getD 0,
        nverified := p.verified.getD false,
        nverification_status := p.verification_status.getD "unverified" })
  sortLe (fun a b => leDistOpt a.ndistance_km b.ndistance_km)
    (sub.filter (fun r =>
      match r.ndistance_km with
      | some d => decide (d ≤ radius_km)
      | none => false))

/-- Row type returned by `get_medicine_availability`. -/
structure AvailRecord where
  apharmacy_id : Nat
  apharmacy_name : String
  apharmacy_address : String
  alatitude : Option ℚ
  alongitude : Option ℚ
  adistance_km : Option ℚ
  arating : ℚ
  areview_count : Int
  aprice : ℚ
  astock : Int
  averified : Option Bool
  deriving Repr, DecidableEq

/-- SQL `ILIKE` with a pattern containing no wildcards: case-insensitive
string equality (both sides lowered character by character). -/
def ilike (a b : String) : Bool :=
  a.data.map Char.toLower == b.data.map Char.toLower

/-- RPC `get_medicine_availability` (part_006, lines 252-308): join of
`medicines` and `pharmacies` on `pharmacy_id`, filtered by
`name ILIKE search_name AND stock > 0 AND latitude IS NOT NULL AND
latitude <> 0 AND verified = true`, ordered by distance ascending.
The `radius_km` parameter exists in the SQL signature but appears in no
WHERE clause, so it is unused. -/
def get_medicine_availability (dist : ℚ → ℚ → ℚ → ℚ → ℚ) (db : DB)
    (search_name : String) (user_lat user_lng radius_km : ℚ) :
    List AvailRecord :=
  let rows : List AvailRecord := db.medicines.flatMap (fun m =>
    ((db.pharmacies.filter (fun p : Pharmacy =>
        p.pid == m.pharmacy_id && ilike m.mname search_name &&
        decide (0 < m.stock) && pharmacyGeoOk p)).map (fun p : Pharmacy =>
      { apharmacy_id := p.pid, apharmacy_name := p.pname,
        apharmacy_address := p.paddress,
        alatitude := p.latitude, alongitude := p.longitude,
        adistance_km := distOf dist user_lat user_lng p,
        arating := p.prating.getD 0,
        areview_count := p.review_count.getD 0,
        aprice := m.selling_price, astock := m.stock,
        averified := p.verified })))
  sortLe (fun a b => leDistOpt a.adistance_km b.adistance_km) rows

/-! Client logic from `MedicineDetail.tsx`. -/

/-- JavaScript `x || d` on a number: `d` when `x` is `0`, else `x`. -/
def jsOrQ (x d : ℚ) : ℚ := if x = 0 then d else x

/-- JavaScript `x || d` on a nullable number. -/
def jsOrOptQ (x : Option ℚ) (d : ℚ) : ℚ :=
  match x with
  | some v => if v = 0 then d else v
  | none => d

/-- JavaScript `x || d` on a nullable int. -/
def jsOrOptInt (x : Option Int) (d : Int) : Int :=
  match x with
  | some v => if v = 0 then d else v
  | none => d

/-- The `sortBy` selector of `MedicineDetail.tsx`. -/
inductive SortKey where
  | nearest
  | cheapest
  | byRating
  deriving Repr, DecidableEq

/-- The mapped pharmacy object built in `MedicineDetail.fetchPharmacies`. -/
structure MappedPharmacy where
  fid : Nat
  fname : String
  faddress : String
  flatitude : ℚ
  flongitude : ℚ
  fdistance : Option ℚ
  frating : ℚ
  freviewCount : Int
  fprice : ℚ
  fstock : Int
  fstockStatus : String
  deriving Repr, DecidableEq

/-- The stock-status derivation of `MedicineDetail.tsx`:
`stock > 10 ? 'In Stock' : (stock > 0 ? 'Low Stock' : 'Out of Stock')`. -/
def stockStatusOf (stock : Int) : String :=
  if 10 < stock then "In Stock"
  else if 0 < stock then "Low Stock"
  else "Out of Stock"

/-- Function `fetchPharmacies` from `MedicineDetail.tsx` (lines 28-78): reads
`userCoordinates?.lat || 0` and `userCoordinates?.lng || 0` (so an absent
location silently becomes the coordinate (0,0)), calls the
`get_medicine_availability` RPC with radius 50, maps the rows, applies the
stock filter (`"all"` keeps everything) and the selected sort. -/
def fetchPharmacies (dist : ℚ → ℚ → ℚ → ℚ → ℚ) (db : DB)
    (medicineName : String) (userCoordinates : Option (ℚ × ℚ))
    (sortKey : SortKey) (stockFilterSel : String) : List MappedPharmacy :=
  let lat := (userCoordinates.map Prod.fst).getD 0
  let lng := (userCoordinates.map Prod.snd).getD 0
  let rawData := get_medicine_availability dist db medicineName lat lng 50
  let mapped : List MappedPharmacy := rawData.map (fun p : AvailRecord =>
    { fid := p.apharmacy_id, fname := p.apharmacy_name,
      faddress := p.apharmacy_address,
      flatitude := jsOrOptQ p.alatitude 0,
      flongitude := jsOrOptQ p.alongitude 0,
      fdistance := p.adistance_km,
      frating := jsOrQ p.arating 0,
      freviewCount := p.areview_count,
      fprice := p.aprice, fstock := p.astock,
      fstockStatus := stockStatusOf p.astock })
  let filtered := if stockFilterSel == "all" then mapped
    else mapped.filter (fun p => p.fstockStatus == stockFilterSel)
  match sortKey with
  | .nearest => sortLe (fun a b =>
      decide (jsOrOptQ a.fdistance 99999 ≤ jsOrOptQ b.fdistance 99999)) filtered
  | .cheapest => sortLe (fun a b => decide (a.fprice ≤ b.fprice)) filtered
  | .byRating => sortLe (fun a b => decide (b.frating ≤ a.frating)) filtered

/-! Client logic from `Home.tsx`: catalog aggregation (`localMedicines`). -/

/-- The slice of the TS `Medicine` object used by the `Home.tsx`
deduplication: name, pharmacy, selling price, and the `availableStores`
counter the loop maintains. -/
structure CatalogMed where
  cname : String
  cpharmacyId : Nat
  cprice : ℚ
  availableStores : Nat
  deriving Repr, DecidableEq

/-- One step of the `filtered.forEach` loop in `Home.tsx` (lines 86-100) on
the insertion-ordered map `unique`: a new name is appended with store count
1; an existing name has its count incremented and its record swapped for the
new one when the new price is strictly lower (preserving the count). -/
def upsertMed (acc : List CatalogMed) (m : CatalogMed) : List CatalogMed :=
  if acc.any (fun u => u.cname == m.cname) then
    acc.map (fun u =>
      if u.cname == m.cname then
        if m.cprice < u.cprice then
          { m with availableStores := u.availableStores + 1 }
        else { u with availableStores := u.availableStores + 1 }
      else u)
  else acc ++ [{ m with availableStores := 1 }]

/-- The `Home.tsx` `localMedicines` deduplication (lines 83-102): fold the
listings through `upsertMed`; `Object.values` returns the entries in first
insertion order, which the list order models. -/
def aggregateCatalog (ms : List CatalogMed) : List CatalogMed :=
  ms.foldl upsertMed []

/-! Prescription matching.  `PrescriptionUpload.findShops` (lines 156-208)
calls the RPC `find_pharmacies_for_prescription` with the item list and the
searcher's coordinates; that RPC's SQL body is not part of the repository
sources, so it is modelled from the spec below. -/

/-- An `{name, qty}` element of the payload sent by `findShops`. -/
structure PrescItem where
  iname : String
  qty : Int
  deriving Repr, DecidableEq

/-- A row of the result set consumed by `findShops`
(`pharmacy_id`, `pharmacy_name`, `pharmacy_address`, `total_cost`,
`distance_km`). -/
structure PrescShopResult where
  rpharmacyId : Nat
  rname : String
  raddress : String
  rtotalCost : ℚ
  rdistance : Option ℚ
  deriving Repr, DecidableEq

/-- Modelled from the spec: §4.4 requires that "a pharmacy is included in
results only if, for every requested item, that pharmacy holds a listing
with quantity ≥ requested quantity".  This is the per-item qualification
test of the missing RPC `find_pharmacies_for_prescription`. -/
def canFulfillItem (db : DB) (ppid : Nat) (it : PrescItem) : Bool :=
  db.medicines.any (fun m =>
    m.pharmacy_id == ppid && m.mname == it.iname && decide (it.qty ≤ m.stock))

/-- Modelled from the spec: §4.4 prices an item at "that pharmacy's own
prices"; the first qualifying listing of the pharmacy supplies the unit
price. -/
def itemPriceAt (db : DB) (ppid : Nat) (it : PrescItem) : ℚ :=
  ((db.medicines.find? (fun m =>
      m.pharmacy_id == ppid && m.mname == it.iname &&
      decide (it.qty ≤ m.stock))).map (fun m => m.selling_price)).getD 0

/-- Modelled from the spec: the RPC `find_pharmacies_for_prescription`
(called by `PrescriptionUpload.findShops` but absent from the sources).
Per §4.4 it keeps exactly the pharmacies fulfilling every item, computes
`totalCost` as the sum of unit price × requested quantity at that pharmacy's
own prices, and returns results with distance, ordered by distance
ascending.  The caller supplies no radius, so none is applied. -/
def find_pharmacies_for_prescription (dist : ℚ → ℚ → ℚ → ℚ → ℚ) (db : DB)
    (items : List PrescItem) (user_lat user_lng : ℚ) :
    List PrescShopResult :=
  let qualifying := db.pharmacies.filter (fun p =>
    items.all (fun it => canFulfillItem db p.pid it))
  let results : List PrescShopResult := qualifying.map (fun p : Pharmacy =>
    { rpharmacyId := p.pid, rname := p.pname, raddress := p.paddress,
      rtotalCost := (items.map (fun it =>
        itemPriceAt db p.pid it * (it.qty : ℚ))).sum,
      rdistance := distOf dist user_lat user_lng p })
  sortLe (fun a b => leDistOpt a.rdistance b.rdistance) results

/-! The distance formula itself, over `ℝ`: the select expression
`6371 * acos(least(1.0, greatest(-1.0, cos(radians(user_lat)) *
cos(radians(lat)) * cos(radians(lng) - radians(user_lng)) +
sin(radians(user_lat)) * sin(radians(lat)))))` shared by both geo RPCs
(part_006, lines 226-234 and 281-289). -/

/-- SQL `radians`: degrees to radians. -/
noncomputable def radiansOf (d : ℝ) : ℝ := d * (Real.pi / 180)

/-- The haversine (great-circle) distance in km computed by the geo RPCs,
with the inverse-cosine argument clamped to [-1, 1]. -/
noncomputable def haversine_km (user_lat user_lng lat lng : ℝ) : ℝ :=
  6371 * Real.arccos (min 1 (max (-1)
    (Real.cos (radiansOf user_lat) * Real.cos (radiansOf lat) *
      Real.cos (radiansOf lng - radiansOf user_lng) +
      Real.sin (radiansOf user_lat) * Real.sin (radiansOf lat))))

/-! Concrete stores used to evaluate the code on the inputs the claims
single out. -/

/-- A verified pharmacy at (10, 20) with a fresh rating state. -/
def ph0 : Pharmacy :=
  { pid := 1, pname := "HealthPlus", paddress := "12 MG Road",
    latitude := some 10, longitude := some 20,
    prating := none, review_count := none,
    verified := some true, verification_status := some "verified" }

/-- A store holding one listing of 10 units of Paracetamol at pharmacy 1. -/
def db_c1 : DB :=
  { pharmacies := [ph0],
    medicines := [{ mid := 1, mname := "Paracetamol", pharmacy_id := 1,
                    selling_price := 30, stock := 10 }],
    bookings := [], reviews := [], sales := [], sale_items := [],
    invoice_seq := 1001 }

/-- The commit of a sale of 15 units against the 10 in stock. -/
def oversale : DB × Nat × String :=
  process_sale db_c1 "251011" 1 "Asha" "9999" "Dr Rao" "Cash"
    450 0 (4018/10) (482/10) 450
    [{ input_id := 1, input_name := "Paracetamol", input_batch := "B1",
       input_expiry := none, input_quantity := 15,
       input_selling_price := 30, input_total := 450, input_gst := 12 }]

/-- A store with one fresh pharmacy and one unrated booking. -/
def db_c2 : DB :=
  { pharmacies := [ph0],
    medicines := [],
    bookings := [{ bid := "b1", is_rated := false }],
    reviews := [], sales := [], sale_items := [],
    invoice_seq := 1001 }

/-- The first review of booking `b1`. -/
def reviewedOnce : DB := submit_review db_c2 "b1" 1 7 5 "good"

/-- A second review of the same, already-rated booking. -/
def reviewedTwice : DB := submit_review reviewedOnce "b1" 1 7 4 "again"

/-- A pharmacy with aggregate 4.0 over 2 reviews, the spec's example prior
state, plus one unrated booking. -/
def db_c4 : DB :=
  { pharmacies := [
      { pid := 1, pname := "HealthPlus", paddress := "12 MG Road",
        latitude := some 10, longitude := some 20,
        prating := some 4, review_count := some 2,
        verified := some true, verification_status := some "verified" }],
    medicines := [], bookings := [{ bid := "b9", is_rated := false }],
    reviews := [], sales := [], sale_items := [], invoice_seq := 1001 }

/-- A constant stand-in for the numeric distance formula, used to evaluate
the distance-generic queries on concrete stores. -/
def dist0 : ℚ → ℚ → ℚ → ℚ → ℚ := fun _ _ _ _ => 0

/-- A store with one verified, located pharmacy holding 5 units of
Crocin. -/
def db_geo : DB :=
  { pharmacies := [ph0],
    medicines := [{ mid := 1, mname := "Crocin", pharmacy_id := 1,
                    selling_price := 25, stock := 5 }],
    bookings := [], reviews := [], sales := [], sale_items := [],
    invoice_seq := 1001 }

/-- The availability record `db_geo` yields for Crocin. -/
def recC9 : AvailRecord :=
  { apharmacy_id := 1, apharmacy_name := "HealthPlus",
    apharmacy_address := "12 MG Road",
    alatitude := some 10, alongitude := some 20, adistance_km := some 0,
    arating := 0, areview_count := 0, aprice := 25, astock := 5,
    averified := some true }

/-- The nearby record `db_geo` yields. -/
def recC10 : NearbyRecord :=
  { nid := 1, nname := "HealthPlus", naddress := "12 MG Road",
    nlatitude := some 10, nlongitude := some 20, ndistance_km := some 0,
    nrating := 0, nreview_count := 0, nverified := true,
    nverification_status := "verified" }

/-- A second pharmacy that carries Paracetamol but lacks Amoxicillin, and a
first that fully stocks both: the spec's §8 matching example store. -/
def db_c7 : DB :=
  { pharmacies := [ph0,
      { pid := 2, pname := "CityMeds", paddress := "4 Park St",
        latitude := some 11, longitude := some 21,
        prating := none, review_count := none,
        verified := some true, verification_status := some "verified" }],
    medicines := [
      { mid := 1, mname := "Paracetamol", pharmacy_id := 1,
        selling_price := 5, stock := 40 },
      { mid := 2, mname := "Amoxicillin", pharmacy_id := 1,
        selling_price := 7, stock := 12 },
      { mid := 3, mname := "Paracetamol", pharmacy_id := 2,
        selling_price := 4, stock := 50 }],
    bookings := [], reviews := [], sales := [], sale_items := [],
    invoice_seq := 1001 }

/-- The §8 example prescription: 10 Paracetamol and 6 Amoxicillin. -/
def presc_c7 : List PrescItem :=
  [{ iname := "Paracetamol", qty := 10 }, { iname := "Amoxicillin", qty := 6 }]

/-! Specification-side views of the `Home.tsx` aggregation, used to state
and prove C6. -/

/-- The two facets of a catalog entry the aggregation maintains. -/
def entryStats (e : CatalogMed) : Nat × ℚ := (e.availableStores, e.cprice)

/-- How one matching listing updates the (store count, price) facet. -/
def statsUpd (s : Option (Nat × ℚ)) (m : CatalogMed) : Option (Nat × ℚ) :=
  match s with
  | none => some (1, m.cprice)
  | some (k, p) => some (k + 1, if m.cprice < p then m.cprice else p)

/-- The (store count, price) facet of name `n` after folding `ms`. -/
def statsOf (n : String) (s : Option (Nat × ℚ)) (ms : List CatalogMed) :
    Option (Nat × ℚ) :=
  ms.foldl (fun s m => if m.cname == n then statsUpd s m else s) s

/-- The listings of `ms` named `n`. -/
def groupOf (n : String) (ms : List CatalogMed) : List CatalogMed :=
  ms.filter (fun m => m.cname == n)

/-- Number of entries of `l` named `n`. -/
def keyCount (n : String) (l : List CatalogMed) : Nat :=
  (groupOf n l).length

/-- Running minimum, seeded at `p`, as computed by the aggregation's
strict-less swap. -/
def runMin (p : ℚ) (qs : List ℚ) : ℚ :=
  qs.foldl (fun a q => if q < a then q else a) p

/-- Two listings of the same medicine offered by the same pharmacy. -/
def crocinTwice : List CatalogMed :=
  [{ cname := "Crocin", cpharmacyId := 1, cprice := 30,
     availableStores := 1 },
   { cname := "Crocin", cpharmacyId := 1, cprice := 25,
     availableStores := 1 }]

/-- The spec's §8 catalog example: three listings of Crocin priced 30, 25,
28 at three distinct pharmacies. -/
def crocinThree : List CatalogMed :=
  [{ cname := "Crocin", cpharmacyId := 1, cprice := 30,
     availableStores := 1 },
   { cname := "Crocin", cpharmacyId := 2, cprice := 25,
     availableStores := 1 },
   { cname := "Crocin", cpharmacyId := 3, cprice := 28,
     availableStores := 1 }]

/-! Shared helper lemmas. -/

/-- Membership is preserved by `insertLe`. -/
theorem mem_insertLe {α : Type} (le : α → α → Bool) (x a : α) :
    ∀ l : List α, a ∈ insertLe le x l ↔ a = x ∨ a ∈ l := by
  intro l
  induction l with
  | nil => simp [insertLe]
  | cons y ys ih =>
    unfold insertLe
    by_cases h : le y x = true
    · simp [h, ih]
      tauto
    · simp [h]

/-- Membership is preserved by `sortLe`. -/
theorem mem_sortLe {α : Type} (le : α → α → Bool) (a : α) :
    ∀ l : List α, a ∈ sortLe le l ↔ a ∈ l := by
  intro l
  induction l with
  | nil => simp [sortLe]
  | cons x xs ih =>
    simp only [sortLe, mem_insertLe, ih, List.mem_cons]

/-- The item loop of `process_sale` does not touch the invoice sequence. -/
theorem foldl_applyItem_invoice_seq (sid : Nat) :
    ∀ (items : List SaleItemInput) (d : DB),
      (items.foldl (applyItem sid) d).invoice_seq = d.invoice_seq := by
  intro items
  induction items with
  | nil => intro d; rfl
  | cons it rest ih =>
    intro d
    rw [List.foldl_cons, ih]
    rfl

/-- C1: `process_sale` has no stock guard.  Selling 15 from a listing
holding 10 does not fail with `InsufficientStock` and does not roll back:
the sale header is persisted, the invoice number is allocated, and the
listing's stock is driven to -5. -/
theorem process_sale_unchecked_decrement :
    oversale.1.medicines.map (fun m => m.stock) = [-5] ∧
    oversale.1.sales.length = 1 ∧
    oversale.1.sale_items.length = 1 ∧
    oversale.2.2 = "INV-251011-1001" := by
  decide

/-- C2: `submit_review` accepts a second review for a booking that is
already rated: after the first call the booking is marked rated, yet the
second call inserts a second review row for the same booking (the `reviews`
table has no uniqueness constraint on `booking_id` and the RPC never checks
`is_rated`) and updates the pharmacy aggregate a second time
(count 2, average (5*1+4)/2 = 9/2). -/
theorem submit_review_duplicate_double_counts :
    reviewedOnce.bookings.map (fun b => b.is_rated) = [true] ∧
    (reviewedTwice.reviews.filter (fun rv => rv.booking_id == "b1")).length = 2 ∧
    reviewedTwice.pharmacies.map (fun p => p.review_count) = [some 2] ∧
    reviewedTwice.pharmacies.map (fun p => p.prating) = [some (9/2 : ℚ)] := by
  refine ⟨by decide, by decide, by decide, ?_⟩
  simp [reviewedTwice, reviewedOnce, submit_review, db_c2, ph0]
  norm_num

/-- C3: when the searcher's coordinates are absent, `fetchPharmacies` does
not reject the query: it silently evaluates it at the substituted default
coordinate (0, 0), returning exactly the records (and distances) that a
searcher located at (0, 0) would get. -/
theorem fetchPharmacies_defaults_to_origin
    (dist : ℚ → ℚ → ℚ → ℚ → ℚ) (db : DB) (medicineName : String)
    (sortKey : SortKey) (stockFilterSel : String) :
    fetchPharmacies dist db medicineName none sortKey stockFilterSel =
      fetchPharmacies dist db medicineName (some (0, 0)) sortKey
        stockFilterSel := by
  rfl

/-- C5: every invoice number carries the global sequence value current at
commit time, in the form `INV-<date>-<sequence>`, and two consecutive
successful sales — whatever their pharmacies, customers or items — use
strictly increasing sequence values. -/
theorem process_sale_invoice_numbering
    (db : DB) (t1 t2 : String) (pid1 pid2 : Nat)
    (cn1 cp1 dn1 pm1 cn2 cp2 dn2 pm2 : String)
    (s1 d1 ta1 tx1 tot1 s2 d2 ta2 tx2 tot2 : ℚ)
    (items1 items2 : List SaleItemInput) :
    (process_sale db t1 pid1 cn1 cp1 dn1 pm1 s1 d1 ta1 tx1 tot1
        items1).2.2 =
      "INV-" ++ t1 ++ "-" ++ toString db.invoice_seq ∧
    (process_sale (process_sale db t1 pid1 cn1 cp1 dn1 pm1 s1 d1 ta1 tx1
        tot1 items1).1 t2 pid2 cn2 cp2 dn2 pm2 s2 d2 ta2 tx2 tot2
        items2).2.2 =
      "INV-" ++ t2 ++ "-" ++
        toString (process_sale db t1 pid1 cn1 cp1 dn1 pm1 s1 d1 ta1 tx1
          tot1 items1).1.invoice_seq ∧
    db.invoice_seq <
      (process_sale db t1 pid1 cn1 cp1 dn1 pm1 s1 d1 ta1 tx1 tot1
        items1).1.invoice_seq := by
  refine ⟨rfl, rfl, ?_⟩
  show db.invoice_seq <
    (items1.foldl (applyItem db.sales.length) _).invoice_seq
  rw [foldl_applyItem_invoice_seq]
  exact Nat.lt_succ_self _

/-- C8: the ranking distance is symmetric in its two coordinate pairs and
zero on identical inputs. -/
theorem haversine_symm_self :
    (∀ lat1 lng1 lat2 lng2 : ℝ,
      haversine_km lat1 lng1 lat2 lng2 = haversine_km lat2 lng2 lat1 lng1) ∧
    (∀ lat lng : ℝ, haversine_km lat lng lat lng = 0) := by
  constructor
  · intro lat1 lng1 lat2 lng2
    unfold haversine_km
    congr 2
    rw [show radiansOf lng1 - radiansOf lng2
          = -(radiansOf lng2 - radiansOf lng1) from (neg_sub _ _).symm,
        Real.cos_neg]
    ring
  · intro lat lng
    unfold haversine_km
    have h1 : Real.cos (radiansOf lat) * Real.cos (radiansOf lat) *
        Real.cos (radiansOf lng - radiansOf lng) +
        Real.sin (radiansOf lat) * Real.sin (radiansOf lat) = 1 := by
      rw [sub_self, Real.cos_zero, mul_one]
      have h2 := Real.sin_sq_add_cos_sq (radiansOf lat)
      nlinarith [h2]
    rw [h1]
    norm_num [Real.arccos_one]

/-- Updating the pharmacy with id `i` by a pid-preserving function `g`
commutes with looking that pharmacy up. -/
theorem find?_update_pid (l : List Pharmacy) (i : Nat)
    (g : Pharmacy → Pharmacy) (hg : ∀ p, (g p).pid = p.pid) (ph : Pharmacy)
    (h : l.find? (fun p => p.pid == i) = some ph) :
    (l.map (fun p => if p.pid == i then g p else p)).find?
      (fun p => p.pid == i) = some (g ph) := by
  rw [List.find?_map]
  have hcomp : ((fun p : Pharmacy => p.pid == i) ∘
      (fun p => if p.pid == i then g p else p)) =
      (fun p : Pharmacy => p.pid == i) := by
    funext p
    show ((if p.pid == i then g p else p).pid == i) = (p.pid == i)
    by_cases hp : (p.pid == i) = true
    · rw [if_pos hp, hg]
    · rw [if_neg hp]
  rw [hcomp, h]
  have hph : (ph.pid == i) = true := by
    have h2 := List.find?_some h
    exact h2
  simp only [Option.map_some']
  rw [if_pos hph]

/-- C4: for a pharmacy with prior aggregate `oldAvg` over `oldCount`
reviews, `submit_review` with rating `r` sets the aggregate to
`(oldAvg * oldCount + r) / (oldCount + 1)` and the count to `oldCount + 1`
(the code's `oldCount = 0` branch agrees with the formula, since the
formula then reduces to `r`). -/
theorem submit_review_weighted_average
    (db : DB) (b : String) (i u : Nat) (r : Int) (c : String)
    (ph : Pharmacy) (oldAvg : ℚ) (oldCount : Int)
    (hfind : db.pharmacies.find? (fun p => p.pid == i) = some ph)
    (havg : ph.prating = some oldAvg)
    (hcount : ph.review_count = some oldCount)
    (hnn : 0 ≤ oldCount) :
    ∃ ph2,
      (submit_review db b i u r c).pharmacies.find?
          (fun p => p.pid == i) = some ph2 ∧
      ph2.prating =
        some ((oldAvg * (oldCount : ℚ) + (r : ℚ)) / ((oldCount : ℚ) + 1)) ∧
      ph2.review_count = some (oldCount + 1) := by
  simp only [submit_review, hfind]
  refine ⟨_, find?_update_pid db.pharmacies i
    (fun p => { p with
      prating := some (if ph.review_count.getD 0 = 0 then (r : ℚ)
        else (ph.prating.getD 0 * ((ph.review_count.getD 0 : Int) : ℚ) +
            (r : ℚ)) / (((ph.review_count.getD 0 : Int) : ℚ) + 1)),
      review_count := some (ph.review_count.getD 0 + 1) })
    (fun _ => rfl) ph hfind, ?_, ?_⟩
  · simp only [havg, hcount, Option.getD_some]
    by_cases h0 : oldCount = 0
    · subst h0
      norm_num
    · simp [h0]
  · simp only [hcount, Option.getD_some]

/-- C4 witness: prior state (average 4.0, count 2) and a new rating 5 give
average (4*2+5)/3 = 13/3 and count 3. -/
theorem submit_review_weighted_average_witness :
    ∃ ph2,
      (submit_review db_c4 "b9" 1 7 5 "ok").pharmacies.find?
          (fun p => p.pid == 1) = some ph2 ∧
      ph2.prating = some (13/3 : ℚ) ∧
      ph2.review_count = some 3 := by
  obtain ⟨ph2, h1, h2, h3⟩ :=
    submit_review_weighted_average db_c4 "b9" 1 7 5 "ok"
      { pid := 1, pname := "HealthPlus", paddress := "12 MG Road",
        latitude := some 10, longitude := some 20,
        prating := some 4, review_count := some 2,
        verified := some true, verification_status := some "verified" }
      4 2 rfl rfl rfl (by norm_num)
  refine ⟨ph2, h1, ?_, ?_⟩
  · rw [h2]
    norm_num
  · rw [h3]
    norm_num

/-- What the shared geo WHERE conjuncts guarantee about a pharmacy row that
passes them. -/
theorem pharmacyGeoOk_spec (p : Pharmacy) (h : pharmacyGeoOk p = true) :
    p.verified = some true ∧ ∃ l, p.latitude = some l ∧ l ≠ 0 := by
  unfold pharmacyGeoOk at h
  rw [Bool.and_eq_true] at h
  obtain ⟨h1, h2⟩ := h
  refine ⟨eq_of_beq h2, ?_⟩
  cases hl : p.latitude with
  | none => rw [hl] at h1; exact absurd h1 (by simp)
  | some l =>
    rw [hl] at h1
    exact ⟨l, rfl, of_decide_eq_true h1⟩

/-- C9: every record returned by `get_medicine_availability` has strictly
positive stock (`WHERE m.stock > 0`). -/
theorem get_medicine_availability_positive_stock
    (dist : ℚ → ℚ → ℚ → ℚ → ℚ) (db : DB) (search_name : String)
    (user_lat user_lng radius_km : ℚ) (rec : AvailRecord)
    (hmem : rec ∈ get_medicine_availability dist db search_name
      user_lat user_lng radius_km) :
    0 < rec.astock := by
  simp only [get_medicine_availability] at hmem
  rw [mem_sortLe, List.mem_flatMap] at hmem
  obtain ⟨m, _, hrec⟩ := hmem
  rw [List.mem_map] at hrec
  obtain ⟨p, hp, rfl⟩ := hrec
  rw [List.mem_filter] at hp
  have h2 := hp.2
  simp only [Bool.and_eq_true, decide_eq_true_eq] at h2
  exact h2.1.2

/-- C9 witness: the Crocin record returned on `db_geo` has positive
stock. -/
theorem get_medicine_availability_positive_stock_witness :
    (0 : Int) < recC9.astock :=
  get_medicine_availability_positive_stock dist0 db_geo "Crocin" 1 1 50
    recC9 (by decide)

/-- C10: every record produced by either geo query comes from a pharmacy
row that is verified (boolean flag true — hence, with the
`auto_verify_shop` sync between flag and status that the repository's
dashboard relies on, status `verified`, so pending/rejected/unverified
pharmacies never appear) and whose latitude is set and nonzero. -/
theorem geo_queries_verified_and_located
    (dist : ℚ → ℚ → ℚ → ℚ → ℚ) (db : DB)
    (user_lat user_lng radius_km : ℚ) (search_name : String)
    (hsync : ∀ p ∈ db.pharmacies,
      p.verified = some true → p.verification_status = some "verified") :
    (∀ rec ∈ get_nearby_pharmacies dist db user_lat user_lng radius_km,
       ∃ p ∈ db.pharmacies, rec.nid = p.pid ∧ p.verified = some true ∧
         p.verification_status = some "verified" ∧
         ∃ l, p.latitude = some l ∧ l ≠ 0) ∧
    (∀ rec ∈ get_medicine_availability dist db search_name
        user_lat user_lng radius_km,
       ∃ p ∈ db.pharmacies, rec.apharmacy_id = p.pid ∧
         p.verified = some true ∧
         p.verification_status = some "verified" ∧
         ∃ l, p.latitude = some l ∧ l ≠ 0) := by
  constructor
  · intro rec hmem
    simp only [get_nearby_pharmacies] at hmem
    rw [mem_sortLe, List.mem_filter] at hmem
    obtain ⟨hmem, _⟩ := hmem
    rw [List.mem_map] at hmem
    obtain ⟨p, hp, rfl⟩ := hmem
    rw [List.mem_filter] at hp
    obtain ⟨hpmem, hok⟩ := hp
    obtain ⟨hv, l, hl, hl0⟩ := pharmacyGeoOk_spec p hok
    exact ⟨p, hpmem, rfl, hv, hsync p hpmem hv, l, hl, hl0⟩
  · intro rec hmem
    simp only [get_medicine_availability] at hmem
    rw [mem_sortLe, List.mem_flatMap] at hmem
    obtain ⟨m, _, hrec⟩ := hmem
    rw [List.mem_map] at hrec
    obtain ⟨p, hp, rfl⟩ := hrec
    rw [List.mem_filter] at hp
    obtain ⟨hpmem, hcond⟩ := hp
    simp only [Bool.and_eq_true] at hcond
    obtain ⟨hv, l, hl, hl0⟩ := pharmacyGeoOk_spec p hcond.2
    exact ⟨p, hpmem, rfl, hv, hsync p hpmem hv, l, hl, hl0⟩

/-- C10 witness: on `db_geo`, the record returned by
`get_nearby_pharmacies` traces back to a verified, located pharmacy. -/
theorem geo_queries_verified_and_located_witness :
    ∃ p ∈ db_geo.pharmacies, recC10.nid = p.pid ∧ p.verified = some true ∧
      p.verification_status = some "verified" ∧
      ∃ l, p.latitude = some l ∧ l ≠ 0 :=
  (geo_queries_verified_and_located dist0 db_geo 1 1 50 "Crocin"
    (by decide)).1 recC10 (by decide)

/-- C7: (all-or-nothing fulfillment) a record appears in the prescription
match exactly for the pharmacies that can fulfill every requested item, and
each such record's total cost is the sum over the items of that pharmacy's
own unit price times the requested quantity. -/
theorem matchPrescription_all_or_nothing
    (dist : ℚ → ℚ → ℚ → ℚ → ℚ) (db : DB) (items : List PrescItem)
    (user_lat user_lng : ℚ) :
    (∀ rec ∈ find_pharmacies_for_prescription dist db items
        user_lat user_lng,
      ∃ p ∈ db.pharmacies, rec.rpharmacyId = p.pid ∧
        (∀ it ∈ items, canFulfillItem db p.pid it = true) ∧
        rec.rtotalCost = (items.map (fun it =>
          itemPriceAt db p.pid it * (it.qty : ℚ))).sum) ∧
    (∀ p ∈ db.pharmacies,
      (∀ it ∈ items, canFulfillItem db p.pid it = true) →
      ∃ rec ∈ find_pharmacies_for_prescription dist db items
          user_lat user_lng,
        rec.rpharmacyId = p.pid ∧
        rec.rtotalCost = (items.map (fun it =>
          itemPriceAt db p.pid it * (it.qty : ℚ))).sum) := by
  constructor
  · intro rec hmem
    simp only [find_pharmacies_for_prescription] at hmem
    rw [mem_sortLe, List.mem_map] at hmem
    obtain ⟨p, hp, rfl⟩ := hmem
    rw [List.mem_filter] at hp
    obtain ⟨hpmem, hall⟩ := hp
    rw [List.all_eq_true] at hall
    exact ⟨p, hpmem, rfl, hall, rfl⟩
  · intro p hpmem hall
    refine ⟨
      { rpharmacyId := p.pid, rname := p.pname, raddress := p.paddress,
        rtotalCost := (items.map (fun it =>
          itemPriceAt db p.pid it * (it.qty : ℚ))).sum,
        rdistance := distOf dist user_lat user_lng p }, ?_, rfl, rfl⟩
    simp only [find_pharmacies_for_prescription]
    rw [mem_sortLe, List.mem_map]
    refine ⟨p, ?_, rfl⟩
    rw [List.mem_filter]
    exact ⟨hpmem, List.all_eq_true.mpr hall⟩

/-- C7 witness: pharmacy 1 stocks both items of the example prescription,
so the match contains a record for it costing 10*5 + 6*7 = 92. -/
theorem matchPrescription_all_or_nothing_witness :
    ∃ rec ∈ find_pharmacies_for_prescription dist0 db_c7 presc_c7 1 1,
      rec.rpharmacyId = 1 ∧
      rec.rtotalCost = (presc_c7.map (fun it =>
        itemPriceAt db_c7 1 it * (it.qty : ℚ))).sum :=
  (matchPrescription_all_or_nothing dist0 db_c7 presc_c7 1 1).2 ph0
    (by decide) (by decide)

/-- The per-entry update applied by `upsertMed` keeps the entry's name. -/
theorem upsert_fn_cname (m u : CatalogMed) :
    (if u.cname == m.cname then
       if m.cprice < u.cprice then
         { m with availableStores := u.availableStores + 1 }
       else { u with availableStores := u.availableStores + 1 }
     else u).cname = u.cname := by
  by_cases hu : (u.cname == m.cname) = true
  · rw [if_pos hu]
    by_cases hpr : m.cprice < u.cprice
    · rw [if_pos hpr]
      exact (eq_of_beq hu).symm
    · rw [if_neg hpr]
  · rw [if_neg hu]

/-- The by-name predicate is invariant under the `upsertMed` entry
update. -/
theorem upsert_fn_comp (m : CatalogMed) (n : String) :
    ((fun u : CatalogMed => u.cname == n) ∘ (fun u =>
       if u.cname == m.cname then
         if m.cprice < u.cprice then
           { m with availableStores := u.availableStores + 1 }
         else { u with availableStores := u.availableStores + 1 }
       else u)) = (fun u : CatalogMed => u.cname == n) := by
  funext u
  show ((if u.cname == m.cname then _ else u).cname == n) = (u.cname == n)
  rw [upsert_fn_cname]

/-- How `upsertMed` transforms the (store count, price) facet of each
name. -/
theorem find?_upsertMed (acc : List CatalogMed) (m : CatalogMed)
    (n : String) :
    ((upsertMed acc m).find? (fun u => u.cname == n)).map entryStats =
      if m.cname == n
      then statsUpd ((acc.find? (fun u => u.cname == n)).map entryStats) m
      else (acc.find? (fun u => u.cname == n)).map entryStats := by
  unfold upsertMed
  by_cases hany : acc.any (fun u => u.cname == m.cname) = true
  · rw [if_pos hany, List.find?_map, upsert_fn_comp]
    by_cases hmn : (m.cname == n) = true
    · rw [if_pos hmn]
      have hmn2 : m.cname = n := eq_of_beq hmn
      cases hf : acc.find? (fun u => u.cname == n) with
      | none =>
        rw [List.find?_eq_none] at hf
        rw [hmn2, List.any_eq_true] at hany
        obtain ⟨u, hu, hu2⟩ := hany
        exact absurd hu2 (by simpa using hf u hu)
      | some u =>
        have hu : (u.cname == n) = true := by
          have h2 := List.find?_some hf
          exact h2
        have huc : (u.cname == m.cname) = true := by
          rw [hmn2]
          exact hu
        simp only [Option.map_some']
        rw [if_pos huc]
        simp only [statsUpd, entryStats]
        by_cases hpr : m.cprice < u.cprice
        · rw [if_pos hpr, if_pos hpr]
        · rw [if_neg hpr, if_neg hpr]
    · rw [if_neg hmn]
      cases hf : acc.find? (fun u => u.cname == n) with
      | none => rfl
      | some u =>
        have hu : (u.cname == n) = true := by
          have h2 := List.find?_some hf
          exact h2
        have huc : ¬((u.cname == m.cname) = true) := by
          intro hcontra
          apply hmn
          rw [← eq_of_beq hcontra]
          exact hu
        simp only [Option.map_some']
        rw [if_neg huc]
  · rw [if_neg hany, List.find?_append]
    by_cases hmn : (m.cname == n) = true
    · rw [if_pos hmn]
      have hf : acc.find? (fun u => u.cname == n) = none := by
        rw [List.find?_eq_none]
        intro u hu hcontra
        apply hany
        rw [List.any_eq_true]
        refine ⟨u, hu, ?_⟩
        rw [eq_of_beq hmn]
        exact hcontra
      rw [hf]
      have hone : List.find? (fun u : CatalogMed => u.cname == n)
          [{ m with availableStores := 1 }] = some
            { m with availableStores := 1 } := by
        simp [List.find?_cons, hmn]
      rw [Option.none_or, hone]
      rfl
    · rw [if_neg hmn]
      have hfalse : (m.cname == n) = false := by
        cases hb : (m.cname == n) with
        | false => rfl
        | true => exact absurd hb hmn
      have hone : List.find? (fun u : CatalogMed => u.cname == n)
          [{ m with availableStores := 1 }] = none := by
        simp [List.find?_cons, hfalse]
      rw [hone, Option.or_none]

/-- Folding listings through `upsertMed` computes, for every name, exactly
the facet fold `statsOf`. -/
theorem agg_stats (ms : List CatalogMed) :
    ∀ (acc : List CatalogMed) (n : String),
      ((ms.foldl upsertMed acc).find? (fun u => u.cname == n)).map
          entryStats =
        statsOf n ((acc.find? (fun u => u.cname == n)).map entryStats)
          ms := by
  induction ms with
  | nil => intro acc n; rfl
  | cons m rest ih =>
    intro acc n
    rw [List.foldl_cons, ih, find?_upsertMed]
    rfl

/-- Unfolding `runMin` one step. -/
theorem runMin_cons (p q : ℚ) (rest : List ℚ) :
    runMin p (q :: rest) = runMin (if q < p then q else p) rest := by
  unfold runMin
  rw [List.foldl_cons]

/-- The running minimum is one of its inputs. -/
theorem runMin_mem (qs : List ℚ) : ∀ p : ℚ, runMin p qs ∈ p :: qs := by
  induction qs with
  | nil => intro p; exact List.mem_singleton.mpr rfl
  | cons q rest ih =>
    intro p
    rw [runMin_cons]
    have h := ih (if q < p then q else p)
    rw [List.mem_cons] at h
    rcases h with h | h
    · rw [h]
      by_cases hq : q < p
      · rw [if_pos hq]; simp
      · rw [if_neg hq]; simp
    · simp [List.mem_cons, h]

/-- The running minimum bounds its seed and every input from below. -/
theorem runMin_le (qs : List ℚ) :
    ∀ p : ℚ, runMin p qs ≤ p ∧ ∀ q ∈ qs, runMin p qs ≤ q := by
  induction qs with
  | nil =>
    intro p
    exact ⟨le_refl _, by simp⟩
  | cons q rest ih =>
    intro p
    rw [runMin_cons]
    obtain ⟨h1, h2⟩ := ih (if q < p then q else p)
    have hsp : (if q < p then q else p) ≤ p := by
      by_cases hq : q < p
      · rw [if_pos hq]; exact le_of_lt hq
      · rw [if_neg hq]
    have hsq : (if q < p then q else p) ≤ q := by
      by_cases hq : q < p
      · rw [if_pos hq]
      · rw [if_neg hq]; exact le_of_not_lt hq
    refine ⟨le_trans h1 hsp, ?_⟩
    intro x hx
    rw [List.mem_cons] at hx
    rcases hx with rfl | hx
    · exact le_trans h1 hsq
    · exact h2 x hx

/-- The facet fold from a present entry adds the group size to the count
and runs the minimum over the group's prices. -/
theorem statsOf_some (n : String) (ms : List CatalogMed) :
    ∀ (k : Nat) (p : ℚ),
      statsOf n (some (k, p)) ms =
        some (k + (groupOf n ms).length,
          runMin p ((groupOf n ms).map (fun x => x.cprice))) := by
  induction ms with
  | nil => intro k p; simp [statsOf, groupOf, runMin]
  | cons m rest ih =>
    intro k p
    by_cases hmn : (m.cname == n) = true
    · have hstep : statsOf n (some (k, p)) (m :: rest) =
          statsOf n (some (k + 1, if m.cprice < p then m.cprice else p))
            rest := by
        unfold statsOf
        rw [List.foldl_cons]
        rw [if_pos hmn]
        rfl
      rw [hstep, ih]
      have hgrp : groupOf n (m :: rest) = m :: groupOf n rest := by
        unfold groupOf
        rw [List.filter_cons, if_pos hmn]
      rw [hgrp, List.map_cons, runMin_cons, List.length_cons]
      simp only [Option.some.injEq, Prod.mk.injEq]
      exact ⟨by omega, trivial⟩
    · have hstep : statsOf n (some (k, p)) (m :: rest) =
          statsOf n (some (k, p)) rest := by
        unfold statsOf
        rw [List.foldl_cons, if_neg hmn]
      have hgrp : groupOf n (m :: rest) = groupOf n rest := by
        unfold groupOf
        rw [List.filter_cons, if_neg hmn]
      rw [hstep, ih, hgrp]

/-- The facet fold from the empty seed over a nonempty group: count is the
group size, price the running minimum of the group's prices. -/
theorem statsOf_none (n : String) :
    ∀ ms : List CatalogMed, groupOf n ms ≠ [] →
      ∃ g0 g, groupOf n ms = g0 :: g ∧
        statsOf n none ms =
          some (1 + g.length,
            runMin g0.cprice (g.map (fun x => x.cprice))) := by
  intro ms
  induction ms with
  | nil => intro h; exact absurd rfl h
  | cons m rest ih =>
    intro h
    by_cases hmn : (m.cname == n) = true
    · refine ⟨m, groupOf n rest, ?_, ?_⟩
      · unfold groupOf
        rw [List.filter_cons, if_pos hmn]
      · have hstep : statsOf n none (m :: rest) =
            statsOf n (some (1, m.cprice)) rest := by
          unfold statsOf
          rw [List.foldl_cons, if_pos hmn]
          rfl
        rw [hstep, statsOf_some]
    · have hgrp : groupOf n (m :: rest) = groupOf n rest := by
        unfold groupOf
        rw [List.filter_cons, if_neg hmn]
      rw [hgrp] at h
      obtain ⟨g0, g, hg, hs⟩ := ih h
      refine ⟨g0, g, by rw [hgrp]; exact hg, ?_⟩
      have hstep : statsOf n none (m :: rest) = statsOf n none rest := by
        unfold statsOf
        rw [List.foldl_cons, if_neg hmn]
      rw [hstep]
      exact hs

/-- Step `upsertMed` either leaves every per-name entry count unchanged (when
the incoming name exists) or appends one entry of the incoming name. -/
theorem keyCount_upsertMed (acc : List CatalogMed) (m : CatalogMed)
    (n : String) :
    keyCount n (upsertMed acc m) =
      if acc.any (fun u => u.cname == m.cname) then keyCount n acc
      else keyCount n acc + (if m.cname == n then 1 else 0) := by
  unfold upsertMed keyCount groupOf
  by_cases hany : acc.any (fun u => u.cname == m.cname) = true
  · rw [if_pos hany, if_pos hany, List.filter_map, upsert_fn_comp,
      List.length_map]
  · rw [if_neg hany, if_neg hany, List.filter_append, List.length_append]
    congr 1
    rw [List.filter_cons]
    by_cases hmn : (m.cname == n) = true
    · rw [if_pos hmn, if_pos hmn]
      rfl
    · rw [if_neg hmn, if_neg hmn]
      rfl

/-- The aggregation never holds two entries of the same name. -/
theorem keyCount_agg_le_one (ms : List CatalogMed) :
    ∀ acc : List CatalogMed, (∀ k, keyCount k acc ≤ 1) →
      ∀ n, keyCount n (ms.foldl upsertMed acc) ≤ 1 := by
  induction ms with
  | nil => intro acc h n; exact h n
  | cons m rest ih =>
    intro acc h n
    rw [List.foldl_cons]
    apply ih
    intro k
    rw [keyCount_upsertMed]
    by_cases hany : acc.any (fun u => u.cname == m.cname) = true
    · rw [if_pos hany]
      exact h k
    · rw [if_neg hany]
      by_cases hmk : (m.cname == k) = true
      · rw [if_pos hmk]
        have hk0 : keyCount k acc = 0 := by
          unfold keyCount groupOf
          rw [List.length_eq_zero, List.filter_eq_nil_iff]
          intro u hu hcontra
          apply hany
          rw [List.any_eq_true]
          refine ⟨u, hu, ?_⟩
          rw [eq_of_beq hmk]
          exact hcontra
        rw [hk0]
      · rw [if_neg hmk, Nat.add_zero]
        exact h k

/-- C6 counterexample: on two same-name listings of one and the same
pharmacy, the aggregation reports `availableStores = 2` — the number of
listings — while only 1 distinct pharmacy carries the medicine, so
`availableStores` is not the count of distinct pharmacies. -/
theorem aggregateCatalog_counts_listings_cex :
    ∃ e, aggregateCatalog crocinTwice = [e] ∧ e.availableStores = 2 ∧
      ((crocinTwice.map (fun m => m.cpharmacyId)).dedup).length = 1 ∧
      e.availableStores ≠
        ((crocinTwice.map (fun m => m.cpharmacyId)).dedup).length := by
  refine ⟨
    { cname := "Crocin", cpharmacyId := 1, cprice := 25,
      availableStores := 2 }, by decide, rfl, by decide, by decide⟩

/-- C6 (amended): for every name occurring in the input, `aggregateCatalog`
holds exactly one entry of that name; its price is the minimum price of the
group, and its `availableStores` is the number of listings of that name
(which equals the number of distinct pharmacies when no pharmacy lists a
name twice). -/
theorem aggregateCatalog_group_spec (ms : List CatalogMed) (n : String)
    (h : groupOf n ms ≠ []) :
    ∃ e, (aggregateCatalog ms).find? (fun u => u.cname == n) = some e ∧
      keyCount n (aggregateCatalog ms) = 1 ∧
      e.availableStores = (groupOf n ms).length ∧
      e.cprice ∈ (groupOf n ms).map (fun x => x.cprice) ∧
      ∀ q ∈ (groupOf n ms).map (fun x => x.cprice), e.cprice ≤ q := by
  obtain ⟨g0, g, hg, hs⟩ := statsOf_none n ms h
  have hagg := agg_stats ms [] n
  simp only [List.find?_nil, Option.map_none'] at hagg
  rw [hs] at hagg
  cases hfind : (aggregateCatalog ms).find? (fun u => u.cname == n) with
  | none =>
    rw [show (ms.foldl upsertMed [] : List CatalogMed) =
      aggregateCatalog ms from rfl, hfind] at hagg
    exact absurd hagg (by simp)
  | some e =>
    rw [show (ms.foldl upsertMed [] : List CatalogMed) =
      aggregateCatalog ms from rfl, hfind] at hagg
    simp only [Option.map_some'] at hagg
    have hpair := Option.some.inj hagg
    have hstores : e.availableStores = 1 + g.length :=
      congrArg Prod.fst hpair
    have hprice : e.cprice =
        runMin g0.cprice (g.map (fun x => x.cprice)) :=
      congrArg Prod.snd hpair
    refine ⟨e, rfl, ?_, ?_, ?_, ?_⟩
    · have hle : keyCount n (aggregateCatalog ms) ≤ 1 :=
        keyCount_agg_le_one ms []
          (by intro k; simp [keyCount, groupOf]) n
      have hmem : e ∈ aggregateCatalog ms :=
        List.mem_of_find?_eq_some hfind
      have hpe : (e.cname == n) = true := by
        have h2 := List.find?_some hfind
        exact h2
      have h1 : 0 < keyCount n (aggregateCatalog ms) := by
        unfold keyCount groupOf
        rw [List.length_pos]
        exact List.ne_nil_of_mem (List.mem_filter.mpr ⟨hmem, hpe⟩)
      omega
    · rw [hstores, hg, List.length_cons]
      omega
    · rw [hprice, hg, List.map_cons]
      exact runMin_mem (g.map (fun x => x.cprice)) g0.cprice
    · intro q hq
      rw [hprice]
      rw [hg, List.map_cons, List.mem_cons] at hq
      obtain ⟨hle1, hle2⟩ := runMin_le (g.map (fun x => x.cprice)) g0.cprice
      rcases hq with rfl | hq
      · exact hle1
      · exact hle2 q hq

/-- C6 witness: on the §8 example the aggregation returns one Crocin entry
with price 25 and `availableStores = 3`. -/
theorem aggregateCatalog_group_spec_witness :
    ∃ e, (aggregateCatalog crocinThree).find?
        (fun u => u.cname == "Crocin") = some e ∧
      e.availableStores = 3 ∧ e.cprice = 25 := by
  obtain ⟨e, hfind, hcount, hstores, hmem, hmin⟩ :=
    aggregateCatalog_group_spec crocinThree "Crocin" (by decide)
  refine ⟨e, hfind, ?_, ?_⟩
  · rw [hstores]
    decide
  · have hprices : (groupOf "Crocin" crocinThree).map (fun x => x.cprice) =
        [30, 25, 28] := by decide
    rw [hprices] at hmem hmin
    have h25 := hmin 25 (by decide)
    simp only [List.mem_cons, List.not_mem_nil, or_false] at hmem
    rcases hmem with hp | hp | hp
    · rw [hp] at h25
      norm_num at h25
    · exact hp
    · rw [hp] at h25
      norm_num at h25

end Medzo
